import Mathlib

/-!
Verification development for the mina-indexer witness tree and its glue code.

The witness fork-choice state machine (`src/state/witness.rs`) is translated
directly from the source.  The `Branch` tree, the `Block` record, `Tip` and
`ExtensionType` live in repository modules that are not present under `src/`
(`src/state/branch.rs`, `src/state/mod.rs`, `src/block/`), so those are
modelled from the specification, as marked on each definition.

Machine integers (`u32`, `usize`) are modelled as `Nat`; the two places where
the source performs `u32` arithmetic that can wrap (`best_tip_length + 1`,
`dangling_root_length - 1`) take an explicit `% 2 ^ 32` (release-mode wrapping
semantics).  Code paths that panic (`expect`, `unwrap`, `panic!`, `todo!`)
are modelled as `Except.error` with the panic message.
-/

/-- `2 ^ 32`, the modulus of `u32` arithmetic. -/
def U32 : Nat := 2 ^ 32

/-- `u32::MAX`, the value substituted for an absent incoming block height. -/
def UMAX : Nat := U32 - 1

/-- Modelled from the spec: the immutable Block Record (the `block` module is
absent from `src/`): identity `state_hash`, `parent_hash` of the predecessor,
and an optional declared height `blockchain_length` (a `u32` in the source).
Hashes are modelled as `Nat`. -/
structure Block where
  state_hash : Nat
  parent_hash : Nat
  blockchain_length : Option Nat
deriving DecidableEq, Repr

/-- `block.blockchain_length.unwrap_or(d)` from the source. -/
def lenOr (d : Nat) (b : Block) : Nat := b.blockchain_length.getD d

/-- Modelled from the spec: a `Tip` (defined in the absent `src/state/mod.rs`)
is a pointer into the root branch: a node identifier plus the cached Block
Record, as described in spec section 3. -/
structure Tip where
  node_id : Nat
  block : Block
deriving DecidableEq, Repr

/-- Modelled from the spec: one arena node of a `Branch` tree
(`src/state/branch.rs` is absent): the stored block and the parent link,
`none` for the root (spec section 9 prescribes an arena of nodes addressed by
stable integer indices with parent links stored as index relations). -/
structure BranchNode where
  block : Block
  parent : Option Nat
deriving DecidableEq, Repr

/-- Modelled from the spec: a `Branch` (`src/state/branch.rs` is absent): an
arena of nodes (node identifier = list index) with one distinguished root. -/
structure Branch where
  nodes : List BranchNode
  root : Nat
deriving DecidableEq, Repr

/-- Height used by best-tip selection: the recorded height, `0` when absent
(matching the `unwrap_or(0)` treatment the witness applies to in-tree blocks). -/
def heightOf (b : Block) : Nat := b.blockchain_length.getD 0

/-- Modelled from the spec: `Branch::new_genesis(root_hash)` builds the
singleton root-only branch.  Only the hash is supplied, so the genesis node
records a sentinel parent hash (`0`) and no recorded height. -/
def Branch.new_genesis (root_hash : Nat) : Branch :=
  ⟨[⟨⟨root_hash, 0, none⟩, none⟩], 0⟩

/-- Modelled from the spec: `Branch::root_block()`, the block stored at the
branch root.  The default is only reachable on a malformed arena whose root
index is out of range; every branch built by the operations below is
well-formed. -/
def Branch.root_block (br : Branch) : Block :=
  match br.nodes.get? br.root with
  | some n => n.block
  | none => ⟨0, 0, none⟩

/-- Modelled from the spec: index of the best tip, the node with the greatest
height, ties broken by earliest insertion (spec section 3 tie-break rule). -/
def Branch.best_tip_idx (br : Branch) : Nat :=
  (br.nodes.enum.foldl
    (fun acc p => if heightOf p.2.block > acc.2 then (p.1, heightOf p.2.block) else acc)
    (0, 0)).1

/-- Modelled from the spec: `Branch::best_tip()`, the best-tip pointer.  The
default block is only reachable on an empty (malformed) arena. -/
def Branch.best_tip (br : Branch) : Tip :=
  match br.nodes.get? br.best_tip_idx with
  | some n => ⟨br.best_tip_idx, n.block⟩
  | none => ⟨br.best_tip_idx, ⟨0, 0, none⟩⟩

/-- Modelled from the spec: `Branch::best_tip_block()`, returning `None` on an
empty arena (the source unwraps this `Option`). -/
def Branch.best_tip_block (br : Branch) : Option Block :=
  (br.nodes.get? br.best_tip_idx).map (fun n => n.block)

/-- Modelled from the spec: walk `steps` parent edges up from node `id`;
`none` when the branch is not that deep. -/
def Branch.walkUp (br : Branch) : Nat → Nat → Option Nat
  | 0, id => some id
  | steps + 1, id =>
    match br.nodes.get? id with
    | some n =>
      match n.parent with
      | some p => br.walkUp steps p
      | none => none
    | none => none

/-- Modelled from the spec: `Branch::canonical_tip(threshold)` walks
`threshold` parent edges up from the best tip and returns `None` if the
branch is not yet that deep (spec section 4.1). -/
def Branch.canonical_tip (br : Branch) (threshold : Nat) : Option Tip :=
  match br.walkUp threshold br.best_tip_idx with
  | some i =>
    match br.nodes.get? i with
    | some n => some ⟨i, n.block⟩
    | none => none
  | none => none

/-- Modelled from the spec: `Branch::extension(block)` attaches `block` as a
child of the node whose block's `state_hash` equals `block.parent_hash`,
returning the new node identifier, or `none` when no attachment point exists
(spec section 4.1). -/
def Branch.extension (br : Branch) (b : Block) : Option (Nat × Branch) :=
  match br.nodes.findIdx? (fun n => n.block.state_hash == b.parent_hash) with
  | some i => some (br.nodes.length, ⟨br.nodes ++ [⟨b, some i⟩], br.root⟩)
  | none => none

/-- Modelled from the spec: `Branch::reroot(block)` installs `block` as the
new root with the old root as its sole child (spec section 4.1). -/
def Branch.reroot (br : Branch) (b : Block) : Nat × Branch :=
  (br.nodes.length,
    ⟨(br.nodes.set br.root ⟨br.root_block, some br.nodes.length⟩) ++ [⟨b, none⟩],
      br.nodes.length⟩)

/-- Modelled from the spec: `Branch::merge_on(target, other)` splices the
whole tree of `other` in as a child subtree of node `target` (spec section
4.1): every node of `other` is appended with its parent link shifted, and
`other`'s root is re-parented onto `target`. -/
def Branch.merge_on (br : Branch) (target : Nat) (other : Branch) : Branch :=
  ⟨br.nodes ++ other.nodes.enum.map (fun p =>
      if p.1 = other.root then ⟨p.2.block, some target⟩
      else ⟨p.2.block, p.2.parent.map (fun q => q + br.nodes.length)⟩),
    br.root⟩

/-- Modelled from the spec: `ExtensionType` (defined in the absent
`src/state/mod.rs`); the six variants are exactly those named by
`src/state/witness.rs` and spec section 4.2. -/
inductive ExtensionType where
  | BlockNotAdded
  | RootSimple
  | RootComplex
  | DanglingNew
  | DanglingExtended
  | DanglingMerged
deriving DecidableEq, Repr

/-- `WitnessConfig` from `src/state/witness.rs` (fields are `usize`). -/
structure WitnessConfig where
  transition_frontier_k : Nat
  canonical_update_threshold : Nat
  prune_interval : Nat
deriving DecidableEq, Repr

/-- `Witness` from `src/state/witness.rs`. -/
structure Witness where
  best_tip : Tip
  canonical_tip : Tip
  root_branch : Branch
  dangling_branches : List Branch
  config : WitnessConfig
deriving DecidableEq, Repr

/-- `Witness::new` from `src/state/witness.rs`: genesis root branch, best tip
from the root branch, canonical tip from `canonical_tip(threshold)` when it
returns a value and the best tip otherwise, and no dangling branches. -/
def Witness.new (root_hash : Nat) (config : WitnessConfig) : Witness :=
  match (Branch.new_genesis root_hash).canonical_tip config.canonical_update_threshold with
  | some tip =>
    ⟨(Branch.new_genesis root_hash).best_tip, tip, Branch.new_genesis root_hash, [], config⟩
  | none =>
    ⟨(Branch.new_genesis root_hash).best_tip, (Branch.new_genesis root_hash).best_tip,
      Branch.new_genesis root_hash, [], config⟩

/-- The loop body of `Witness::try_merge_dangling` from `src/state/witness.rs`:
walk the dangling branches once; a branch whose root block's `state_hash`
equals the state hash of the node `newId` (looked up afresh in the current
root branch, `expect`-ing the id to be valid) is spliced in via `merge_on`
and dropped from the kept list; the flag records whether any merge happened. -/
def tmdLoop (newId : Nat) : List Branch → Branch → Except String (Branch × List Branch × Bool)
  | [], rb => Except.ok (rb, [], false)
  | br :: rest, rb =>
    match rb.nodes.get? newId with
    | none => Except.error "new_node_id is valid"
    | some n =>
      if n.block.state_hash = br.root_block.state_hash then
        match tmdLoop newId rest (rb.merge_on newId br) with
        | Except.error e => Except.error e
        | Except.ok (rb', kept, _) => Except.ok (rb', kept, true)
      else
        match tmdLoop newId rest rb with
        | Except.error e => Except.error e
        | Except.ok (rb', kept, m) => Except.ok (rb', br :: kept, m)

/-- `Witness::try_merge_dangling` from `src/state/witness.rs`: run the single
pass above; when at least one branch was merged, refresh `best_tip` from the
root branch and drop the merged branches, returning `true`; otherwise leave
the witness untouched and return `false`. -/
def Witness.try_merge_dangling (w : Witness) (newId : Nat) : Except String (Bool × Witness) :=
  match tmdLoop newId w.dangling_branches w.root_branch with
  | Except.error e => Except.error e
  | Except.ok (rb', kept, merged) =>
    if merged then
      Except.ok (true,
        { w with root_branch := rb', dangling_branches := kept, best_tip := rb'.best_tip })
    else Except.ok (false, w)

/-- The dangling-branch arm of `Witness::add_block` (the `else` of the
root-window test in `src/state/witness.rs`).  Every path of the source ends in
`todo!()` or `panic!`, so only the first dangling branch is ever examined and
every outcome is an error; the mutations performed before the `todo!()`
(`reroot`, `extension` on that branch) are applied first.  The source computes
`dangling_root_length - 1` in `u32`, modelled as `+ UMAX` modulo `U32`. -/
def Witness.danglingStep (w : Witness) (b : Block) : Except String ExtensionType × Witness :=
  match w.dangling_branches with
  | [] => (Except.error "not yet implemented", w)
  | br :: rest =>
    match br.best_tip_block with
    | none => (Except.error "called Option unwrap on a None value", w)
    | some dtip =>
      if lenOr UMAX b = (lenOr 0 br.root_block + UMAX) % U32 then
        (Except.error "not yet implemented",
          { w with dangling_branches := (br.reroot b).2 :: rest })
      else if lenOr 0 br.root_block < lenOr UMAX b ∧ lenOr UMAX b ≤ (lenOr 0 dtip + 1) % U32 then
        match br.extension b with
        | some (_, br') =>
          (Except.error "not yet implemented", { w with dangling_branches := br' :: rest })
        | none => (Except.error "uncaught long range fork!", w)
      else
        (Except.error "not yet implemented", w)

/-- `Witness::add_block` from `src/state/witness.rs`, lines 43-112.  The
lengths are `unwrap_or(0)` for the root block and the best-tip block and
`unwrap_or(u32::MAX)` for the incoming block; the best-tip lookup `expect`s
the node to exist; a block at or below the root height is rejected; a block
within the root window is attached by `Branch::extension` (panicking on a
missing attachment point), `best_tip` is refreshed and the dangling merge
pass decides `RootComplex` versus `RootSimple`; anything else falls into the
unimplemented dangling arm. -/
def Witness.add_block (w : Witness) (b : Block) : Except String ExtensionType × Witness :=
  match w.root_branch.nodes.get? w.best_tip.node_id with
  | none => (Except.error "best tip always exists", w)
  | some btNode =>
    if lenOr UMAX b ≤ lenOr 0 w.root_branch.root_block then
      (Except.ok ExtensionType.BlockNotAdded, w)
    else if lenOr UMAX b ≤ (lenOr 0 btNode.block + 1) % U32 then
      match w.root_branch.extension b with
      | some (newId, rb') =>
        match Witness.try_merge_dangling
            { w with root_branch := rb', best_tip := rb'.best_tip } newId with
        | Except.ok (true, w2) => (Except.ok ExtensionType.RootComplex, w2)
        | Except.ok (false, w2) => (Except.ok ExtensionType.RootSimple, w2)
        | Except.error e =>
          (Except.error e, { w with root_branch := rb', best_tip := rb'.best_tip })
      | none => (Except.error "uncaught long range fork!", w)
    else
      Witness.danglingStep w b

/-- Threads a sequence of `add_block` calls through a witness, keeping the
state each call returns (also after a modelled panic, where the witness holds
the mutations performed before the panic point). -/
def runAddBlocks (w : Witness) : List Block → Witness
  | [] => w
  | b :: bs => runAddBlocks (Witness.add_block w b).2 bs

/-- Modelled from the spec: the parsed `PrecomputedBlock` record (the `block`
module is absent from `src/`); it exposes the identity hash and, through its
protocol state, the previous state hash (the `from_hashv1` conversion between
the two hash representations is modelled as the identity on `Nat`). -/
structure PrecomputedBlock where
  state_hash : Nat
  previous_state_hash : Nat
deriving DecidableEq, Repr

/-- Modelled from the spec: `IndexerStore::get_block`, key-value access keyed
by state hash (the `store` module is absent from `src/`); the `Result` layer
of the rocksdb read is out of scope, the `Option` layer is kept. -/
def getBlock (store : List PrecomputedBlock) (h : Nat) : Option PrecomputedBlock :=
  store.find? (fun p => p.state_hash == h)

/-- The block-fetch loop of the `best_chain` arm in `src/server.rs` (lines
209-219): `for _ in 1..num` fetches the current `parent_hash` from the store,
`unwrap`-ing the lookup (modelled as an error), steps `parent_hash` to the
fetched block's previous state hash, and pushes the block. -/
def bestChainGo (store : List PrecomputedBlock) :
    Nat → Nat → List PrecomputedBlock → Except String (List PrecomputedBlock)
  | 0, _, acc => Except.ok acc.reverse
  | k + 1, ph, acc =>
    match getBlock store ph with
    | none => Except.error "called Option unwrap on a None value"
    | some p => bestChainGo store k p.previous_state_hash (p :: acc)

/-- The `best_chain` arm of the IPC server in `src/server.rs` (lines
185-224), given an initialized state: start from the best-tip block
(`unwrap`-ing its store lookup), then run the fetch loop `num - 1` times
(`for _ in 1..num`). -/
def bestChainReply (store : List PrecomputedBlock) (bestTipBlock : Block) (num : Nat) :
    Except String (List PrecomputedBlock) :=
  match getBlock store bestTipBlock.state_hash with
  | none => Except.error "called Option unwrap on a None value"
  | some first => bestChainGo store (num - 1) bestTipBlock.parent_hash [first]

/-- The command arms of the IPC connection handler in `src/server.rs`
(the `match command_string.as_str()` at lines 158-328). -/
inductive CommandArm where
  | account
  | bestChain
  | bestLedger
  | summary
  | saveState
  | badRequest
deriving DecidableEq, Repr

/-- Arm selection of the IPC connection handler in `src/server.rs`: the first
space-separated token of the request frame picks the arm; everything else is
the `_bad_request` arm. -/
def armOf (cmd : String) : CommandArm :=
  if cmd = "account" then CommandArm.account
  else if cmd = "best_chain" then CommandArm.bestChain
  else if cmd = "best_ledger" then CommandArm.bestLedger
  else if cmd = "summary" then CommandArm.summary
  else if cmd = "save_state" then CommandArm.saveState
  else CommandArm.badRequest

/-- The state a connection handler arm can observe: whether the indexer state
is initialized (`indexer_state.as_ref()` is `Some`) and whether the requested
account exists in the best ledger. -/
structure ConnContext where
  initialized : Bool
  accountFound : Bool
deriving DecidableEq, Repr

/-- The externally observable effects of one handler arm in `src/server.rs`:
how many `write_all` responses go to the client, whether the arm logs,
whether it sends a `SaveCommand` to the writer task, whether it mutates the
witness or indexer state, and whether the connection is closed (the stream is
dropped when the `accept` iteration ends, in every arm). -/
structure ConnEffect where
  responses : Nat
  logged : Bool
  sendsSave : Bool
  mutatesState : Bool
  closes : Bool
deriving DecidableEq, Repr

/-- Effects of each arm, read off `src/server.rs` lines 158-328 on the
non-panicking path: `account` writes the init message or, when initialized,
the account bytes only if the account is found, and logs nothing;
`best_chain`, `best_ledger` and `summary` log their receipt and write one
response (`summary` also logs the reply); `save_state` logs, writes the
acknowledgement plus the outcome when initialized, and forwards a
`SaveCommand`; `_bad_request` is a bare `continue`: no write, no log, no
state change, the stream simply dropped. -/
def armEffect : CommandArm → ConnContext → ConnEffect
  | CommandArm.account, ctx =>
    ⟨if ctx.initialized then (if ctx.accountFound then 1 else 0) else 1,
      false, false, false, true⟩
  | CommandArm.bestChain, _ => ⟨1, true, false, false, true⟩
  | CommandArm.bestLedger, _ => ⟨1, true, false, false, true⟩
  | CommandArm.summary, _ => ⟨1, true, false, false, true⟩
  | CommandArm.saveState, ctx =>
    ⟨if ctx.initialized then 2 else 1, true, ctx.initialized, false, true⟩
  | CommandArm.badRequest, _ => ⟨0, false, false, false, true⟩

/-- Result of one pass of the cloud block worker's directory loop in
`src/receiver/google_cloud.rs` (lines 116-146): blocks pushed to the blocks
channel, files removed, parse errors sent on the error channel, and files
left in place. -/
structure WorkerPass where
  enqueued : List PrecomputedBlock
  deleted : List Nat
  errors : List (Nat × String)
  kept : List Nat
deriving DecidableEq, Repr

/-- The `read_dir` entry loop of `GoogleCloudBlockWorker::worker_loop`
(`src/receiver/google_cloud.rs` lines 121-143), with `is_valid_block_file`
and `parse_file` abstracted as parameters (the `block` module is absent from
`src/`): an invalid file is skipped; a successfully parsed file is pushed to
the blocks channel and then removed; a parse failure is sent on the error
channel and the file is left in place, and the loop continues with the
remaining entries either way. -/
def processDirEntries (parse : Nat → Except String PrecomputedBlock)
    (valid : Nat → Bool) : List Nat → WorkerPass
  | [] => ⟨[], [], [], []⟩
  | p :: ps =>
    let r := processDirEntries parse valid ps
    if valid p then
      match parse p with
      | Except.ok blk => ⟨blk :: r.enqueued, p :: r.deleted, r.errors, r.kept⟩
      | Except.error e => ⟨r.enqueued, r.deleted, (p, e) :: r.errors, p :: r.kept⟩
    else ⟨r.enqueued, r.deleted, r.errors, p :: r.kept⟩

/-- The configuration used by the concrete scenarios below. -/
def cfg1 : WitnessConfig := ⟨290, 1, 10⟩

/-- The block stored for the genesis hash `1` by `Branch.new_genesis`. -/
def genBlock : Block := ⟨1, 0, none⟩

/-- A fresh witness over genesis hash `1`. -/
def wGen : Witness := Witness.new 1 cfg1

/-- A child of the genesis block at height 1. -/
def blkB1 : Block := ⟨2, 1, some 1⟩

/-- A child of `blkB1` at height 2. -/
def blkB2 : Block := ⟨3, 2, some 2⟩

/-- A block at height 2 whose parent is the genesis block: it is outside the
root window of `wGen` (height exceeds best-tip height + 1). -/
def blkOut : Block := ⟨5, 1, some 2⟩

/-- A dangling branch holding the single block `10`, whose parent hash `2`
is the state hash of `blkB1`. -/
def danglingB : Branch := ⟨[⟨⟨10, 2, some 2⟩, none⟩], 0⟩

/-- A witness over genesis hash `1` carrying `danglingB` as its only
dangling branch. -/
def wDangling : Witness :=
  ⟨⟨0, genBlock⟩, ⟨0, genBlock⟩, Branch.new_genesis 1, [danglingB], cfg1⟩

/-- A witness whose single root block records height 5. -/
def wRooted : Witness :=
  ⟨⟨0, ⟨1, 0, some 5⟩⟩, ⟨0, ⟨1, 0, some 5⟩⟩, ⟨[⟨⟨1, 0, some 5⟩, none⟩], 0⟩, [], cfg1⟩

/-- A block at height 3, below the root height of `wRooted`. -/
def blkLow : Block := ⟨2, 1, some 3⟩

/-- A witness whose single root block records height `u32::MAX`. -/
def wRootMax : Witness :=
  ⟨⟨0, ⟨1, 0, some UMAX⟩⟩, ⟨0, ⟨1, 0, some UMAX⟩⟩, ⟨[⟨⟨1, 0, some UMAX⟩, none⟩], 0⟩, [], cfg1⟩

/-- A block carrying no recorded height. -/
def blkNoLen : Block := ⟨2, 1, none⟩

/-- A store holding only the tip block `1` (a chain of length one). -/
def store1 : List PrecomputedBlock := [⟨1, 0⟩]

/-- The cached best-tip block for `store1`. -/
def tipBlk : Block := ⟨1, 0, some 1⟩

/-- A connection context with the state initialized and the account found. -/
def ctx0 : ConnContext := ⟨true, true⟩

/-- A parse function that fails on file `3` and succeeds elsewhere. -/
def parseC : Nat → Except String PrecomputedBlock :=
  fun p => if p = 3 then Except.error "bad json" else Except.ok ⟨p, 0⟩

/-- Every file is a valid block file. -/
def validC : Nat → Bool := fun _ => true

/-- A directory listing with a failing file in the middle. -/
def psC : List Nat := [1, 3, 2]

/-- `try_merge_dangling` never touches `canonical_tip`: every witness it can
return keeps the field of its input. -/
theorem tmd_canonical (w : Witness) (newId : Nat) (r : Bool) (w' : Witness)
    (h : Witness.try_merge_dangling w newId = Except.ok (r, w')) :
    w'.canonical_tip = w.canonical_tip := by
  unfold Witness.try_merge_dangling at h
  split at h
  · exact Except.noConfusion h
  · split at h
    · injection h with h1
      injection h1 with h1 h2
      rw [← h2]
    · injection h with h1
      injection h1 with h1 h2
      rw [← h2]

/-- The dangling arm never touches `canonical_tip`. -/
theorem danglingStep_canonical (w : Witness) (b : Block) :
    ((Witness.danglingStep w b).2).canonical_tip = w.canonical_tip := by
  unfold Witness.danglingStep
  split
  · rfl
  · split
    · rfl
    · split
      · rfl
      · split
        · split
          · rfl
          · rfl
        · rfl

/-- The dangling arm of `add_block` never returns normally: every path of the
source ends in `todo!()` or `panic!`. -/
theorem danglingStep_error (w : Witness) (b : Block) (x : ExtensionType) :
    (Witness.danglingStep w b).1 ≠ Except.ok x := by
  unfold Witness.danglingStep
  split
  · exact fun h => Except.noConfusion h
  · split
    · exact fun h => Except.noConfusion h
    · split
      · exact fun h => Except.noConfusion h
      · split
        · split
          · exact fun h => Except.noConfusion h
          · exact fun h => Except.noConfusion h
        · exact fun h => Except.noConfusion h

/-- `add_block` never writes `canonical_tip`: the field of the returned
witness always equals the field of the input witness, on every path
(rejection, root extension with or without merges, every modelled panic). -/
theorem add_block_canonical (w : Witness) (b : Block) :
    ((Witness.add_block w b).2).canonical_tip = w.canonical_tip := by
  unfold Witness.add_block
  split
  · rfl
  · split
    · rfl
    · split
      · split
        · rename_i newId rb' hext
          split
          · rename_i w2 htmd
            exact tmd_canonical { w with root_branch := rb', best_tip := rb'.best_tip }
              newId true w2 htmd
          · rename_i w2 htmd
            exact tmd_canonical { w with root_branch := rb', best_tip := rb'.best_tip }
              newId false w2 htmd
          · rfl
        · rfl
      · exact danglingStep_canonical w b

/-- `canonical_tip` is invariant under any sequence of `add_block` calls. -/
theorem runAddBlocks_canonical (bs : List Block) :
    ∀ w : Witness, (runAddBlocks w bs).canonical_tip = w.canonical_tip := by
  induction bs with
  | nil => intro w; rfl
  | cons b bs ih =>
    intro w
    calc (runAddBlocks w (b :: bs)).canonical_tip
        = (runAddBlocks (Witness.add_block w b).2 bs).canonical_tip := rfl
      _ = ((Witness.add_block w b).2).canonical_tip := ih _
      _ = w.canonical_tip := add_block_canonical w b

/-- Unfolding of the worker directory loop on a valid, successfully parsed
entry. -/
theorem pde_cons_ok (parse : Nat → Except String PrecomputedBlock) (valid : Nat → Bool)
    (q : Nat) (ps : List Nat) (blk : PrecomputedBlock)
    (hv : valid q = true) (hq : parse q = Except.ok blk) :
    processDirEntries parse valid (q :: ps) =
      ⟨blk :: (processDirEntries parse valid ps).enqueued,
        q :: (processDirEntries parse valid ps).deleted,
        (processDirEntries parse valid ps).errors,
        (processDirEntries parse valid ps).kept⟩ := by
  simp only [processDirEntries, hv, hq, if_true]

/-- Unfolding of the worker directory loop on a valid entry that fails to
parse. -/
theorem pde_cons_err (parse : Nat → Except String PrecomputedBlock) (valid : Nat → Bool)
    (q : Nat) (ps : List Nat) (e : String)
    (hv : valid q = true) (hq : parse q = Except.error e) :
    processDirEntries parse valid (q :: ps) =
      ⟨(processDirEntries parse valid ps).enqueued,
        (processDirEntries parse valid ps).deleted,
        (q, e) :: (processDirEntries parse valid ps).errors,
        q :: (processDirEntries parse valid ps).kept⟩ := by
  simp only [processDirEntries, hv, hq, if_true]

/-- Unfolding of the worker directory loop on an entry that is not a valid
block file. -/
theorem pde_cons_invalid (parse : Nat → Except String PrecomputedBlock) (valid : Nat → Bool)
    (q : Nat) (ps : List Nat) (hv : valid q = false) :
    processDirEntries parse valid (q :: ps) =
      ⟨(processDirEntries parse valid ps).enqueued,
        (processDirEntries parse valid ps).deleted,
        (processDirEntries parse valid ps).errors,
        q :: (processDirEntries parse valid ps).kept⟩ := by
  simp only [processDirEntries, hv, Bool.false_eq_true, if_false]

/-- Claim C1: `Witness::add_block` is claimed total, always returning one of
the six `ExtensionType` variants.  The code is not: on `wGen` (a fresh
genesis-only witness) the block `blkOut` (height 2, outside the root window)
falls into the dangling arm, whose every path is `todo!()` or `panic!`; the
call aborts instead of returning a variant. -/
theorem claimC1 : (Witness.add_block wGen blkOut).1 = Except.error "not yet implemented" := rfl

/-- Claim C2: after a non-rejected `add_block` the claimed invariant is that
`canonical_tip` equals the ancestor of the updated `best_tip` at depth
`canonical_update_threshold`.  The code never recomputes `canonical_tip`
(only `Witness::new` sets it): after adding `blkB1` then `blkB2` to a fresh
witness with threshold 1, the call returns `RootSimple`, the ancestor of the
best tip at depth 1 is `blkB1`'s node, yet `canonical_tip` is still the
genesis tip. -/
theorem claimC2 :
    (Witness.add_block (Witness.add_block wGen blkB1).2 blkB2).1 =
      Except.ok ExtensionType.RootSimple ∧
    (Witness.add_block (Witness.add_block wGen blkB1).2 blkB2).2.canonical_tip =
      ⟨0, genBlock⟩ ∧
    (Witness.add_block (Witness.add_block wGen blkB1).2 blkB2).2.root_branch.canonical_tip
      cfg1.canonical_update_threshold = some ⟨1, blkB1⟩ :=
  ⟨rfl, rfl, rfl⟩

/-- Claim C3: after a root-branch extension, every dangling branch whose
root's `parent_hash` is a state hash present in the root branch is claimed to
be merged in, with `RootComplex` returned.  The code's `try_merge_dangling`
instead compares the dangling root's `state_hash` with the new node's state
hash: on `wDangling` (whose dangling branch's root has `parent_hash` 2),
adding `blkB1` (state hash 2) puts hash 2 into the root branch, yet the call
returns `RootSimple` and the dangling branch stays unmerged. -/
theorem claimC3 :
    (Witness.add_block wDangling blkB1).1 = Except.ok ExtensionType.RootSimple ∧
    (Witness.add_block wDangling blkB1).2.dangling_branches = [danglingB] :=
  ⟨rfl, rfl⟩

/-- Claim C4: for every witness (whose best-tip pointer is valid, as on every
reachable state) and every block whose recorded height is at most the root
block's recorded height, `add_block` returns `BlockNotAdded` and leaves the
whole witness unchanged. -/
theorem claimC4 (w : Witness) (b : Block) (nb nr : Nat)
    (hwf : (w.root_branch.nodes.get? w.best_tip.node_id).isSome = true)
    (hb : b.blockchain_length = some nb)
    (hr : w.root_branch.root_block.blockchain_length = some nr)
    (hle : nb ≤ nr) :
    Witness.add_block w b = (Except.ok ExtensionType.BlockNotAdded, w) := by
  unfold Witness.add_block
  split
  · rename_i hbt
    rw [hbt] at hwf
    exact Bool.noConfusion hwf
  · rename_i btNode hbt
    have hcond : lenOr UMAX b ≤ lenOr 0 w.root_branch.root_block := by
      unfold lenOr
      rw [hb, hr]
      simpa using hle
    rw [if_pos hcond]

/-- Witness for claim C4 at a concrete input: `wRooted` has root height 5 and
`blkLow` height 3. -/
theorem claimC4_witness :
    Witness.add_block wRooted blkLow = (Except.ok ExtensionType.BlockNotAdded, wRooted) :=
  claimC4 wRooted blkLow 3 5 rfl rfl rfl (by decide)

/-- Claim C5: across any sequence of `add_block` calls the height of
`canonical_tip` never decreases.  It holds because the code never changes
`canonical_tip` at all after construction. -/
theorem claimC5 (w : Witness) (bs : List Block) :
    heightOf w.canonical_tip.block ≤ heightOf (runAddBlocks w bs).canonical_tip.block := by
  rw [runAddBlocks_canonical]

/-- Claim C6: `best_chain <n>` is claimed to reply with up to `n` blocks and
in particular to succeed with fewer when the chain to genesis is shorter.
The handler instead always performs `n - 1` parent fetches, `unwrap`-ing each
store lookup: with a store holding only the tip block (chain of length 1),
`best_chain 2` panics on the missing parent instead of replying with one
block. -/
theorem claimC6 :
    bestChainReply store1 tipBlk 2 = Except.error "called Option unwrap on a None value" := rfl

/-- Claim C7 counterexample: the claim says an unrecognized command gets an
error response and a log line.  The request `"foo"` selects the
`_bad_request` arm, which writes zero responses to the client (and, per
`claimC7_amended`, logs nothing). -/
theorem claimC7_counterexample :
    armOf "foo" = CommandArm.badRequest ∧ (armEffect (armOf "foo") ctx0).responses = 0 :=
  ⟨rfl, rfl⟩

/-- Claim C7 as amended: for every request whose first token is not a
recognized command, the server sends no response and writes no log for it,
forwards nothing to the writer task, mutates no witness or indexer state,
and the connection is closed (the stream is dropped). -/
theorem claimC7_amended (cmd : String) (ctx : ConnContext)
    (h : armOf cmd = CommandArm.badRequest) :
    armEffect (armOf cmd) ctx = ⟨0, false, false, false, true⟩ := by
  rw [h]
  rfl

/-- Witness for claim C7 at a concrete input: the unrecognized command
`"bar"`. -/
theorem claimC7_witness :
    armEffect (armOf "bar") ctx0 = ⟨0, false, false, false, true⟩ :=
  claimC7_amended "bar" ctx0 rfl

/-- Claim C8: in the cloud block worker's directory loop, a file is deleted
only when it parsed successfully and its block was enqueued, while a parse
failure is reported on the error channel, leaves the file in place, never
deletes it, and does not stop the loop (the effects of every listed entry,
before or after a failure, are all present in the result). -/
theorem claimC8 (parse : Nat → Except String PrecomputedBlock) (valid : Nat → Bool)
    (ps : List Nat) :
    (∀ p ∈ (processDirEntries parse valid ps).deleted,
        valid p = true ∧
        ∃ blk, parse p = Except.ok blk ∧ blk ∈ (processDirEntries parse valid ps).enqueued) ∧
    (∀ p e, p ∈ ps → valid p = true → parse p = Except.error e →
        (p, e) ∈ (processDirEntries parse valid ps).errors ∧
        p ∈ (processDirEntries parse valid ps).kept ∧
        p ∉ (processDirEntries parse valid ps).deleted) := by
  induction ps with
  | nil =>
    constructor
    · intro p hp
      simp [processDirEntries] at hp
    · intro p e hp
      simp at hp
  | cons q ps ih =>
    by_cases hv : valid q = true
    · cases hq : parse q with
      | ok blk =>
        rw [pde_cons_ok parse valid q ps blk hv hq]
        constructor
        · intro p hp
          rcases List.mem_cons.mp hp with h1 | h1
          · subst h1
            exact ⟨hv, blk, hq, List.mem_cons_self _ _⟩
          · obtain ⟨hvp, blk', hpq, hmem⟩ := ih.1 p h1
            exact ⟨hvp, blk', hpq, List.mem_cons_of_mem _ hmem⟩
        · intro p e hp hvp hpe
          rcases List.mem_cons.mp hp with h1 | h1
          · subst h1
            rw [hq] at hpe
            exact Except.noConfusion hpe
          · obtain ⟨he, hk, hd⟩ := ih.2 p e h1 hvp hpe
            refine ⟨he, hk, ?_⟩
            intro hmem
            rcases List.mem_cons.mp hmem with h2 | h2
            · subst h2
              rw [hq] at hpe
              exact Except.noConfusion hpe
            · exact hd h2
      | error e0 =>
        rw [pde_cons_err parse valid q ps e0 hv hq]
        constructor
        · intro p hp
          exact ih.1 p hp
        · intro p e hp hvp hpe
          rcases List.mem_cons.mp hp with h1 | h1
          · subst h1
            rw [hq] at hpe
            injection hpe with he
            subst he
            refine ⟨List.mem_cons_self _ _, List.mem_cons_self _ _, ?_⟩
            intro hmem
            obtain ⟨_, blk', hpq, _⟩ := ih.1 p hmem
            rw [hq] at hpq
            exact Except.noConfusion hpq
          · obtain ⟨he, hk, hd⟩ := ih.2 p e h1 hvp hpe
            exact ⟨List.mem_cons_of_mem _ he, List.mem_cons_of_mem _ hk, hd⟩
    · have hv' : valid q = false := by
        cases hvq : valid q
        · rfl
        · exact absurd hvq hv
      rw [pde_cons_invalid parse valid q ps hv']
      constructor
      · intro p hp
        exact ih.1 p hp
      · intro p e hp hvp hpe
        rcases List.mem_cons.mp hp with h1 | h1
        · subst h1
          rw [hvp] at hv'
          exact Bool.noConfusion hv'
        · obtain ⟨he, hk, hd⟩ := ih.2 p e h1 hvp hpe
          exact ⟨he, List.mem_cons_of_mem _ hk, hd⟩

/-- Witness for claim C8 at a concrete input: in the listing `[1, 3, 2]`
with `parseC` failing on file `3`, the failure is reported, file `3` stays in
place and is not deleted. -/
theorem claimC8_witness :
    ((3 : Nat), "bad json") ∈ (processDirEntries parseC validC psC).errors ∧
    (3 : Nat) ∈ (processDirEntries parseC validC psC).kept ∧
    (3 : Nat) ∉ (processDirEntries parseC validC psC).deleted :=
  (claimC8 parseC validC psC).2 3 "bad json" (by decide) rfl rfl

/-- Claim C9 counterexample: the claim's parenthetical says
`canonical_tip(threshold)` always returns no value on the singleton genesis
branch; at threshold `0` it returns a value (the best tip itself). -/
theorem claimC9_counterexample :
    ((Branch.new_genesis 1).canonical_tip 0).isSome = true := rfl

/-- Claim C9 as amended: a fresh witness has no dangling branches, its best
tip is the root branch's best tip, its canonical tip equals its best tip
whenever `canonical_tip(threshold)` returns no value, and on the singleton
genesis branch that is the case whenever the threshold is at least 1. -/
theorem claimC9_amended (rh : Nat) (cfg : WitnessConfig) :
    (Witness.new rh cfg).dangling_branches = [] ∧
    (Witness.new rh cfg).best_tip = (Branch.new_genesis rh).best_tip ∧
    ((Branch.new_genesis rh).canonical_tip cfg.canonical_update_threshold = none →
      (Witness.new rh cfg).canonical_tip = (Witness.new rh cfg).best_tip) ∧
    (1 ≤ cfg.canonical_update_threshold →
      (Branch.new_genesis rh).canonical_tip cfg.canonical_update_threshold = none) := by
  refine ⟨?_, ?_, ?_, ?_⟩
  · unfold Witness.new
    split <;> rfl
  · unfold Witness.new
    split <;> rfl
  · intro hc
    unfold Witness.new
    rw [hc]
  · intro ht
    cases hct : cfg.canonical_update_threshold with
    | zero => rw [hct] at ht; exact absurd ht (by decide)
    | succ t => rfl

/-- Witness for claim C9 at a concrete input: genesis hash 1 and `cfg1`
(threshold 1). -/
theorem claimC9_witness :
    (Witness.new 1 cfg1).dangling_branches = [] ∧
    (Witness.new 1 cfg1).canonical_tip = (Witness.new 1 cfg1).best_tip ∧
    (Branch.new_genesis 1).canonical_tip cfg1.canonical_update_threshold = none :=
  ⟨(claimC9_amended 1 cfg1).1,
    (claimC9_amended 1 cfg1).2.2.1 ((claimC9_amended 1 cfg1).2.2.2 (by decide)),
    (claimC9_amended 1 cfg1).2.2.2 (by decide)⟩

/-- Claim C10 counterexample: a block with no recorded height is claimed to
never be rejected by the below-root check; on a witness whose root block
records height `u32::MAX` the substituted comparison `MAX >= MAX` holds and
the block is rejected. -/
theorem claimC10_counterexample :
    (Witness.add_block wRootMax blkNoLen).1 = Except.ok ExtensionType.BlockNotAdded := rfl

/-- Claim C10 as amended: a block whose `blockchain_length` is absent has its
height substituted with `u32::MAX` while an absent root height reads as 0, so
it is never rejected by the below-root check unless the root block's recorded
height is itself `u32::MAX`. -/
theorem claimC10_amended (w : Witness) (b : Block)
    (hb : b.blockchain_length = none)
    (hroot : ∀ k, w.root_branch.root_block.blockchain_length = some k → k < UMAX) :
    (Witness.add_block w b).1 ≠ Except.ok ExtensionType.BlockNotAdded := by
  unfold Witness.add_block
  split
  · exact fun hcontra => Except.noConfusion hcontra
  · rename_i btNode hbt
    have h1 : ¬ (lenOr UMAX b ≤ lenOr 0 w.root_branch.root_block) := by
      unfold lenOr
      rw [hb]
      cases hk : w.root_branch.root_block.blockchain_length with
      | none =>
        simp only [Option.getD_none]
        decide
      | some k =>
        have hlt := hroot k hk
        simp only [Option.getD_none, Option.getD_some]
        omega
    rw [if_neg h1]
    split
    · split
      · split
        · simp
        · simp
        · simp
      · simp
    · exact danglingStep_error w b ExtensionType.BlockNotAdded

/-- Witness for claim C10 at a concrete input: a fresh genesis witness (root
height absent) and the heightless block `blkNoLen`. -/
theorem claimC10_witness :
    (Witness.add_block wGen blkNoLen).1 ≠ Except.ok ExtensionType.BlockNotAdded :=
  claimC10_amended wGen blkNoLen rfl (fun _ hk => Option.noConfusion hk)
